import Mathlib

/-!
Shallow embedding of the vibro-arthrographic (VAG) knee-osteoarthritis
detection pipeline of `signal analysis/VAG_Analysis.py` (class
`KneeOADetector`): the static threshold table, severity classification,
the diagnosis decision table, signal preprocessing (scipy `butter` /
`filtfilt` / `iirnotch`), and FFT-based spectral analysis
(`analyze_signal`).

Real-valued samples and frequencies are modelled as rationals.  The
transcendental numeric kernels supplied by numpy/scipy — the Hann window
sample values, the magnitudes `|fft(x)|`, the butter/iirnotch filter
coefficient values and the `lfilter_zi` steady state — are irrational in
general, so their values are abstracted into a parameter structure
`NumOps`; every theorem below uses only structural facts about them
(output lengths, nonnegativity of magnitudes, and that the magnitude
spectrum of the all-zero signal is all-zero), each of which holds for the
real numpy/scipy implementations.  All control flow, index arithmetic,
error conditions, threshold logic and the energy-ratio arithmetic are
embedded exactly as in the source.

IEEE-754 NaN (as produced by numpy when `fft_vals / np.max(fft_vals)`
divides zero by zero) is modelled by `Option ℚ`: `none` is a
non-finite value (NaN), `some q` a finite one.
-/

namespace VAG

/-- Sensor channel kinds: the keys of `self.thresholds` in
`KneeOADetector.__init__`. -/
inductive Sensor where
  | mic
  | piezo
  deriving DecidableEq

/-- Severity categories of the static threshold table. -/
inductive Severity where
  | healthy
  | mild
  | severe
  deriving DecidableEq

/-- Upper bound of a threshold interval; `inf` models Python's
`float('inf')`. -/
inductive UpperBound where
  | fin (q : ℚ)
  | inf
  deriving DecidableEq

/-- The static threshold table of `KneeOADetector.__init__`
(`self.thresholds`): sensor kind → severity → `(lower, upper)` interval. -/
def thresholds : Sensor → Severity → ℚ × UpperBound
  | Sensor.piezo, Severity.healthy => (30, UpperBound.fin 80)
  | Sensor.piezo, Severity.mild => (80, UpperBound.fin 120)
  | Sensor.piezo, Severity.severe => (120, UpperBound.inf)
  | Sensor.mic, Severity.healthy => (100, UpperBound.fin 350)
  | Sensor.mic, Severity.mild => (350, UpperBound.fin 450)
  | Sensor.mic, Severity.severe => (450, UpperBound.inf)

/-- `KneeOADetector.get_severity_level`: checks the severe lower bound
first, then the mild lower bound, else healthy (0). -/
def get_severity_level (freq : ℚ) (sensor : Sensor) : ℕ :=
  if (thresholds sensor Severity.severe).1 ≤ freq then 2
  else if (thresholds sensor Severity.mild).1 ≤ freq then 1
  else 0

/-- The fixed citation block appended to every diagnosis
(`notes.extend([...])` in `KneeOADetector.diagnose`). -/
def researchBasis : List String :=
  ["\n--- Research Basis ---",
   "Tamura et al., 2013 – Mic >400 Hz correlates with KL3–4",
   "Chandran et al., 2021 – Piezo >120 Hz indicates sclerosis",
   "OARSI – Dual-sensor VAG improves OA detection"]

/-- `KneeOADetector.diagnose`: derives per-channel severity levels and
branches exactly as the source does (the two single-channel-elevated
rules first, then the equality branch with its nested cases, else
"Inconclusive"); the energy arguments are accepted and ignored, as in
the source. -/
def diagnose (mic_freq piezo_freq : ℚ) (mic_energy piezo_energy : Option ℚ) :
    String × List String :=
  let mic_level := get_severity_level mic_freq Sensor.mic
  let piezo_level := get_severity_level piezo_freq Sensor.piezo
  let body : String × List String :=
    if 1 ≤ mic_level ∧ piezo_level = 0 then
      ("Early Osteoarthritis (KL Grade 1–2)",
       ["Mic shows elevated frequency → cartilage roughening.",
        "Piezo normal → joint mechanics preserved.",
        "MRI suggested for confirmation."])
    else if 1 ≤ piezo_level ∧ mic_level = 0 then
      ("Subchondral Bone Changes (Pre-OA)",
       ["Piezo frequency elevated → bone remodeling.",
        "Mic normal → cartilage intact.",
        "X-ray recommended."])
    else if mic_level = piezo_level then
      if mic_level = 2 then
        ("Severe Osteoarthritis (KL Grade 3–4)",
         ["Both sensors show pathological vibration."])
      else if mic_level = 1 then
        ("Moderate Osteoarthritis (KL Grade 2–3)",
         ["Degeneration in progress."])
      else
        ("Healthy Knee (KL Grade 0)",
         ["No abnormal vibro-acoustic activity detected."])
    else
      ("Inconclusive",
       ["Sensor disagreement detected.",
        "Repeat test or use imaging methods."])
  (body.1, body.2 ++ researchBasis)

/-- The spec's flat decision table over the pair of severity levels,
written rule by rule in the order the spec states them (the two
single-channel-elevated rules before the equality rules). -/
def diagnosisTable (micLevel piezoLevel : ℕ) : String :=
  if 1 ≤ micLevel ∧ piezoLevel = 0 then "Early Osteoarthritis (KL Grade 1–2)"
  else if 1 ≤ piezoLevel ∧ micLevel = 0 then "Subchondral Bone Changes (Pre-OA)"
  else if micLevel = 2 ∧ piezoLevel = 2 then "Severe Osteoarthritis (KL Grade 3–4)"
  else if micLevel = 1 ∧ piezoLevel = 1 then "Moderate Osteoarthritis (KL Grade 2–3)"
  else if micLevel = 0 ∧ piezoLevel = 0 then "Healthy Knee (KL Grade 0)"
  else "Inconclusive"

/-- Abstracted numpy/scipy numeric kernels.  The pipeline's theorems
quantify over this structure and use only structural facts that hold of
the real library implementations: `np.hanning n` has length `n`,
`|fft(x)|` has the length of `x`, is elementwise nonnegative and is
all-zero on the all-zero signal; `scipy.signal.butter N wn` (band type)
returns `2N+1` numerator and denominator taps; `scipy.signal.iirnotch`
returns 3 taps each. -/
structure NumOps where
  hanning : ℕ → List ℚ
  fftAbs : List ℚ → List ℚ
  butterBA : ℕ → List ℚ → List ℚ × List ℚ
  iirnotch : ℚ → ℚ → ℚ → List ℚ × List ℚ
  lfilter_zi : List ℚ → List ℚ → List ℚ

/-- `scipy.signal.butter(N, wn, btype='band')` up to the coefficient
values: scipy's `iirfilter` validates digital critical frequencies with
`if numpy.any(Wn <= 0) or numpy.any(Wn >= 1): raise ValueError(...)`
before computing coefficients. -/
def butter (ops : NumOps) (N : ℕ) (wn : List ℚ) : Except String (List ℚ × List ℚ) :=
  if wn.any (fun w => decide (w ≤ 0) || decide (1 ≤ w)) then
    Except.error "Digital filter critical frequencies must be 0 < Wn < 1"
  else
    Except.ok (ops.butterBA N wn)

/-- One direct-form-II-transposed IIR filtering pass
(`scipy.signal.lfilter` with initial state `z`), structural recursion on
the input samples. -/
def lfilterGo (b a : List ℚ) : List ℚ → List ℚ → List ℚ
  | [], _ => []
  | xn :: rest, z =>
    let a0 := a.headD 1
    let y := (b.headD 0 * xn + z.headD 0) / a0
    let m := max b.length a.length - 1
    let z2 := (List.range m).map (fun i =>
      (b.getD (i + 1) 0 / a0) * xn + z.getD (i + 1) 0 - (a.getD (i + 1) 0 / a0) * y)
    y :: lfilterGo b a rest z2

/-- scipy's `odd_ext(x, n)`: odd extension by `n` samples on both ends,
`concat((2*x[0] - x[n:0:-1], x, 2*x[-1] - x[-2:-(n+2):-1]))`. -/
def oddExt (x : List ℚ) (n : ℕ) : List ℚ :=
  let h := x.headD 0
  let l := x.getLastD 0
  ((List.range n).map (fun i => 2 * h - x.getD (n - i) 0)) ++ x ++
    ((List.range n).map (fun i => 2 * l - x.getD (x.length - 2 - i) 0))

/-- `scipy.signal.filtfilt(b, a, x)` with its defaults
(`method='pad'`, `padtype='odd'`, `padlen = 3 * max(len(a), len(b))`):
raises when `len(x) <= padlen`, otherwise odd-extends, filters forward
with initial state `lfilter_zi(b,a) * x_ext[0]`, filters the reversal,
reverses back and slices the extension off, yielding `len(x)` samples. -/
def filtfilt (ops : NumOps) (b a x : List ℚ) : Except String (List ℚ) :=
  let ntaps := max a.length b.length
  let edge := ntaps * 3
  if x.length ≤ edge then
    Except.error "The length of the input vector x must be greater than padlen"
  else
    let ext := oddExt x edge
    let zi := ops.lfilter_zi b a
    let x0 := ext.headD 0
    let y1 := lfilterGo b a ext (zi.map (fun z => z * x0))
    let y1r := y1.reverse
    let y0 := y1r.headD 0
    let y2 := lfilterGo b a y1r (zi.map (fun z => z * y0))
    Except.ok ((y2.reverse.drop edge).take x.length)

/-- `KneeOADetector.preprocess`: identity on signals shorter than 10
samples; otherwise a 4th-order bandpass (50–600 Hz, cutoffs normalized
by the Nyquist frequency `fs/2`) via `filtfilt`, then a 50 Hz notch, and
for the piezo channel an additional 100 Hz harmonic notch. -/
def preprocess (ops : NumOps) (fs : ℚ) (data : List ℚ) (sensor : Sensor) :
    Except String (List ℚ) :=
  if data.length < 10 then Except.ok data
  else
    match butter ops 4 [50 / (fs / 2), 600 / (fs / 2)] with
    | Except.error e => Except.error e
    | Except.ok (b, a) =>
      match filtfilt ops b a data with
      | Except.error e => Except.error e
      | Except.ok filtered =>
        let bn_an := ops.iirnotch 50 30 fs
        match filtfilt ops bn_an.1 bn_an.2 filtered with
        | Except.error e => Except.error e
        | Except.ok filtered2 =>
          if sensor = Sensor.piezo then
            let bh_ah := ops.iirnotch 100 30 fs
            filtfilt ops bh_ah.1 bh_ah.2 filtered2
          else Except.ok filtered2

/-- The one-sided magnitude spectrum before normalization:
`np.abs(fft(data * np.hanning(n)))[:n // 2]`. -/
def fftValsOf (ops : NumOps) (data : List ℚ) : List ℚ :=
  (ops.fftAbs (List.zipWith (fun x w => x * w) data (ops.hanning data.length))).take
    (data.length / 2)

/-- `np.max` on a sample list (the empty case never arises in the
pipeline). -/
def npMax : List ℚ → ℚ
  | [] => 0
  | x :: xs => xs.foldl max x

/-- The normalized magnitudes `v / max` as exact rationals (meaningful
when the maximum is nonzero). -/
def normVals (ops : NumOps) (data : List ℚ) : List ℚ :=
  (fftValsOf ops data).map (fun v => v / npMax (fftValsOf ops data))

/-- `fft_vals / np.max(fft_vals)` with IEEE semantics: when the maximum
of the (nonnegative) magnitudes is zero every entry is `0/0 = NaN`
(`none`); otherwise every entry is the finite rational `v / max`. -/
def normOf (ops : NumOps) (data : List ℚ) : List (Option ℚ) :=
  let fv := fftValsOf ops data
  let m := npMax fv
  if m = 0 then fv.map (fun _ => none) else fv.map (fun v => some (v / m))

/-- Index of the first strict maximum seen so far (`np.argmax` keeps the
first occurrence of the maximum). -/
def argmaxQGo : List ℚ → ℚ → ℕ → ℕ → ℕ
  | [], _, bi, _ => bi
  | y :: ys, bv, bi, i =>
    if bv < y then argmaxQGo ys y i (i + 1) else argmaxQGo ys bv bi (i + 1)

/-- `np.argmax` over finite values: index of the first occurrence of the
maximum (0 on the empty list, though the pipeline raises first). -/
def argmaxQ : List ℚ → ℕ
  | [] => 0
  | x :: xs => argmaxQGo xs x 0 1

/-- `np.argmax` over possibly-NaN values: numpy returns the index of the
first NaN when one is present, else the index of the first maximum. -/
def argmaxF (l : List (Option ℚ)) : ℕ :=
  match l.findIdx? (fun v => v.isNone) with
  | some i => i
  | none => argmaxQ (l.filterMap id)

/-- `np.sum` over possibly-NaN values: NaN-absorbing, 0 on the empty
selection. -/
def optSum : List (Option ℚ) → Option ℚ
  | [] => some 0
  | x :: xs => Option.bind x (fun a => (optSum xs).map (fun s => a + s))

/-- IEEE division on possibly-NaN values, collapsing NaN/∞ results to
`none` (the numerator is nonnegative wherever this is used). -/
def optDiv : Option ℚ → Option ℚ → Option ℚ
  | some a, some b => if b = 0 then none else some (a / b)
  | _, _ => none

/-- Boolean-mask selection `vals[(freqs >= lo) & (freqs < hi)]`. -/
def maskSelect (freqs : List ℚ) (vals : List (Option ℚ)) (lo hi : ℚ) :
    List (Option ℚ) :=
  ((List.zip freqs vals).filter
    (fun p => decide (lo ≤ p.1) && decide (p.1 < hi))).map Prod.snd

/-- Band sum over finite values: the sum of `vals` at indices whose
frequency lies in `[lo, hi)` — the spec's "sum of normalized magnitudes
over bins in a band". -/
def bandSum (freqs vals : List ℚ) (lo hi : ℚ) : ℚ :=
  (((List.zip freqs vals).filter
    (fun p => decide (lo ≤ p.1) && decide (p.1 < hi))).map Prod.snd).sum

/-- The one-sided frequency axis `fftfreq(n, 1/fs)[:n // 2]`: bin `k`
maps to `k * fs / n`. -/
def freqAxis (fs : ℚ) (n : ℕ) : List ℚ :=
  (List.range (n / 2)).map (fun k => (k : ℚ) * fs / (n : ℚ))

/-- The quadruple returned by `KneeOADetector.analyze_signal` in the
non-degenerate case. -/
structure SpectrumResult where
  dominant_freq : ℚ
  freqs : List ℚ
  fft_vals : List (Option ℚ)
  energy_ratio : Option ℚ
  deriving DecidableEq

/-- `KneeOADetector.analyze_signal`: `Except.ok none` models the Python
`(None, None, None, None)` return for signals shorter than 10 samples;
`Except.error` models the `ValueError` that `np.argmax` raises on the
empty slice `fft_vals[10:]` (which happens exactly when `n // 2 <= 10`);
otherwise the dominant frequency, frequency axis, normalized spectrum
and energy ratio are computed as in the source. -/
def analyze_signal (ops : NumOps) (fs : ℚ) (data : List ℚ) :
    Except String (Option SpectrumResult) :=
  let n := data.length
  if n < 10 then Except.ok none
  else
    let freqs := freqAxis fs n
    let norm := normOf ops data
    if n / 2 ≤ 10 then Except.error "attempt to get argmax of an empty sequence"
    else
      let dominant_idx := argmaxF (norm.drop 10) + 10
      let dominant_freq := freqs.getD dominant_idx 0
      let energy_ratio :=
        optDiv (optSum (maskSelect freqs norm 300 600))
          ((optSum (maskSelect freqs norm 50 150)).map (fun s => s + 1 / 1000000000))
      Except.ok (some ⟨dominant_freq, freqs, norm, energy_ratio⟩)

/-- View of a preprocessing outcome: the output length on success,
`none` on a raised error. -/
def exceptLen : Except String (List ℚ) → Option ℕ
  | Except.ok l => some l.length
  | Except.error _ => none

/-- View of an analysis outcome: the dominant frequency when a spectrum
was produced. -/
def domFreqView : Except String (Option SpectrumResult) → Option ℚ
  | Except.ok (some r) => some r.dominant_freq
  | _ => none

/-- View of an analysis outcome: the normalized magnitude list when a
spectrum was produced. -/
def fftValsView : Except String (Option SpectrumResult) → Option (List (Option ℚ))
  | Except.ok (some r) => some r.fft_vals
  | _ => none

/-- View of an analysis outcome: the energy ratio when a spectrum was
produced (`some none` = the program returned a NaN ratio). -/
def ratioView : Except String (Option SpectrumResult) → Option (Option ℚ)
  | Except.ok (some r) => some r.energy_ratio
  | _ => none

/-- A concrete instantiation of the abstract numeric kernels used to
evaluate the pipeline on closed inputs.  It satisfies every structural
hypothesis the theorems place on `NumOps` (lengths, nonnegativity,
all-zero preservation), and it agrees with the real numpy/scipy kernels
on each closed evaluation below wherever the evaluated fact depends on
kernel values at all (in particular `|fft(0)| = 0`). -/
def concreteOps : NumOps :=
  ⟨fun n => List.replicate n 1,
   fun x => x.map (fun v => |v|),
   fun N _ => (List.replicate (2 * N + 1) 1, List.replicate (2 * N + 1) 1),
   fun _ _ _ => ([1, 1, 1], [1, 1, 1]),
   fun b a => List.replicate (max b.length a.length - 1) 0⟩

set_option maxRecDepth 16384

/-- The severity level is always one of 0, 1, 2. -/
theorem level_cases (f : ℚ) (s : Sensor) :
    get_severity_level f s = 0 ∨ get_severity_level f s = 1 ∨ get_severity_level f s = 2 := by
  unfold get_severity_level
  split_ifs <;> simp

/-- C1: for every pair of dominant frequencies, `diagnose` returns the
label of the spec's fixed decision table applied to the two severity
levels, with the two single-channel-elevated rules evaluated before the
equality rules; in particular the table sends (2,0) to "Early
Osteoarthritis" (not "Inconclusive"), (0,1)/(0,2) to "Subchondral Bone
Changes (Pre-OA)", (2,2) to "Severe", (1,1) to "Moderate", (0,0) to
"Healthy Knee", and the remaining disagreements to "Inconclusive". -/
theorem diagnose_decision_table :
    (∀ (mf pf : ℚ) (me pe : Option ℚ),
      (diagnose mf pf me pe).1 =
        diagnosisTable (get_severity_level mf Sensor.mic) (get_severity_level pf Sensor.piezo))
    ∧ diagnosisTable 1 0 = "Early Osteoarthritis (KL Grade 1–2)"
    ∧ diagnosisTable 2 0 = "Early Osteoarthritis (KL Grade 1–2)"
    ∧ diagnosisTable 0 1 = "Subchondral Bone Changes (Pre-OA)"
    ∧ diagnosisTable 0 2 = "Subchondral Bone Changes (Pre-OA)"
    ∧ diagnosisTable 2 2 = "Severe Osteoarthritis (KL Grade 3–4)"
    ∧ diagnosisTable 1 1 = "Moderate Osteoarthritis (KL Grade 2–3)"
    ∧ diagnosisTable 0 0 = "Healthy Knee (KL Grade 0)"
    ∧ diagnosisTable 1 2 = "Inconclusive"
    ∧ diagnosisTable 2 1 = "Inconclusive" := by
  refine ⟨?_, rfl, rfl, rfl, rfl, rfl, rfl, rfl, rfl, rfl⟩
  intro mf pf me pe
  rcases level_cases mf Sensor.mic with h1 | h1 | h1 <;>
    rcases level_cases pf Sensor.piezo with h2 | h2 | h2 <;>
      simp [diagnose, diagnosisTable, h1, h2]

/-- C2: thresholds are evaluated from highest to lowest with inclusive
lower edges — at or above the severe lower bound the level is 2, in
the mild interval it is 1, below the mild lower bound it is 0 (for both
sensor kinds, with the mic bounds 350/450 and piezo bounds 80/120); in
particular 350.0 Hz on the mic channel is Mild, 349.999 Hz is Healthy
and 450.0 Hz is Severe. -/
theorem get_severity_level_spec :
    (∀ f : ℚ,
      (450 ≤ f → get_severity_level f Sensor.mic = 2)
      ∧ (350 ≤ f → f < 450 → get_severity_level f Sensor.mic = 1)
      ∧ (f < 350 → get_severity_level f Sensor.mic = 0))
    ∧ (∀ f : ℚ,
      (120 ≤ f → get_severity_level f Sensor.piezo = 2)
      ∧ (80 ≤ f → f < 120 → get_severity_level f Sensor.piezo = 1)
      ∧ (f < 80 → get_severity_level f Sensor.piezo = 0))
    ∧ get_severity_level 350 Sensor.mic = 1
    ∧ get_severity_level (349999 / 1000) Sensor.mic = 0
    ∧ get_severity_level 450 Sensor.mic = 2 := by
  refine ⟨?_, ?_, ?_, ?_, ?_⟩
  · intro f
    refine ⟨fun h => ?_, fun h1 h2 => ?_, fun h => ?_⟩ <;>
      · simp only [get_severity_level, thresholds]
        split_ifs <;> first | rfl | linarith
  · intro f
    refine ⟨fun h => ?_, fun h1 h2 => ?_, fun h => ?_⟩ <;>
      · simp only [get_severity_level, thresholds]
        split_ifs <;> first | rfl | linarith
  · norm_num [get_severity_level, thresholds]
  · norm_num [get_severity_level, thresholds]
  · norm_num [get_severity_level, thresholds]

/-- Witness for C2 at concrete frequencies. -/
theorem get_severity_level_spec_witness :
    get_severity_level 500 Sensor.mic = 2 ∧ get_severity_level 90 Sensor.piezo = 1 :=
  ⟨(get_severity_level_spec.1 500).1 (by norm_num),
   (get_severity_level_spec.2.1 90).2.1 (by norm_num) (by norm_num)⟩

/-- C9 counterexample: the lowest severity's lower bound is 30 (piezo)
and 100 (mic), not 0, so the table's intervals do not cover [0, ∞). -/
theorem thresholds_lowest_not_zero :
    (thresholds Sensor.piezo Severity.healthy).1 = 30
    ∧ (thresholds Sensor.mic Severity.healthy).1 = 100
    ∧ (thresholds Sensor.piezo Severity.healthy).1 ≠ 0 := by
  refine ⟨rfl, rfl, by norm_num [thresholds]⟩

/-- C9 as amended: for each sensor kind the intervals are contiguous and
monotonically increasing (each upper bound equals the next lower bound),
the top severity is unbounded above, and the lowest lower bound is
strictly positive (30 for piezo, 100 for mic) — so the intervals cover
[lowest lower bound, ∞), not [0, ∞). -/
theorem thresholds_contiguous :
    ∀ s : Sensor,
      (thresholds s Severity.healthy).2 = UpperBound.fin (thresholds s Severity.mild).1
      ∧ (thresholds s Severity.mild).2 = UpperBound.fin (thresholds s Severity.severe).1
      ∧ (thresholds s Severity.severe).2 = UpperBound.inf
      ∧ (thresholds s Severity.healthy).1 < (thresholds s Severity.mild).1
      ∧ (thresholds s Severity.mild).1 < (thresholds s Severity.severe).1
      ∧ 0 < (thresholds s Severity.healthy).1 := by
  intro s
  cases s <;>
    exact ⟨rfl, rfl, rfl, by norm_num [thresholds], by norm_num [thresholds],
      by norm_num [thresholds]⟩

/-- C10: severity classification is monotone in the frequency, and its
result is always one of 0, 1, 2 for every rational frequency (including
frequencies below the table's lowest healthy lower bound). -/
theorem get_severity_level_monotone :
    (∀ (s : Sensor) (f1 f2 : ℚ), f1 ≤ f2 →
      get_severity_level f1 s ≤ get_severity_level f2 s)
    ∧ (∀ (s : Sensor) (f : ℚ),
      get_severity_level f s = 0 ∨ get_severity_level f s = 1 ∨ get_severity_level f s = 2) := by
  refine ⟨?_, fun s f => level_cases f s⟩
  intro s f1 f2 h
  unfold get_severity_level
  split_ifs <;> first | (exfalso; linarith) | norm_num

/-- Witness for C10 at concrete frequencies. -/
theorem get_severity_level_monotone_witness :
    get_severity_level 100 Sensor.mic ≤ get_severity_level 400 Sensor.mic :=
  get_severity_level_monotone.1 Sensor.mic 100 400 (by norm_num)

/-- `lfilterGo` preserves the sample count, whatever the coefficients
and initial state. -/
theorem lfilterGo_length (b a : List ℚ) :
    ∀ (x z : List ℚ), (lfilterGo b a x z).length = x.length := by
  intro x
  induction x with
  | nil => intro z; rfl
  | cons h t ih => intro z; simp [lfilterGo, ih]

/-- The odd extension adds `n` samples on each side. -/
theorem oddExt_length (x : List ℚ) (n : ℕ) : (oddExt x n).length = n + x.length + n := by
  simp [oddExt]
  try omega

/-- `filtfilt` succeeds and preserves the length whenever the input is
longer than the pad length `3 * max(len a, len b)`. -/
theorem filtfilt_ok (ops : NumOps) (b a x : List ℚ)
    (h : max a.length b.length * 3 < x.length) :
    ∃ y, filtfilt ops b a x = Except.ok y ∧ y.length = x.length := by
  simp only [filtfilt]
  rw [if_neg (by omega)]
  refine ⟨_, rfl, ?_⟩
  simp [lfilterGo_length, oddExt_length]
  try omega

/-- C3: signals shorter than 10 samples short-circuit — `preprocess`
returns the input unchanged and `analyze_signal` returns the null
result (the Python `(None, None, None, None)`). -/
theorem short_signal_degenerate (ops : NumOps) (fs : ℚ) (data : List ℚ) (sensor : Sensor)
    (h : data.length < 10) :
    preprocess ops fs data sensor = Except.ok data
    ∧ analyze_signal ops fs data = Except.ok none := by
  constructor
  · simp only [preprocess]
    rw [if_pos h]
  · simp only [analyze_signal]
    rw [if_pos h]

/-- Witness for C3 on a 3-sample signal. -/
theorem short_signal_degenerate_witness :
    preprocess concreteOps 5000 [1, 2, 3] Sensor.mic = Except.ok [1, 2, 3]
    ∧ analyze_signal concreteOps 5000 [1, 2, 3] = Except.ok none :=
  short_signal_degenerate concreteOps 5000 [1, 2, 3] Sensor.mic (by simp)

/-- C4 counterexample: a 10-sample signal (length ≥ 10 as the claim
requires) makes the bandpass `filtfilt` raise its pad-length
`ValueError` (`padlen = 3 * 9 = 27 ≥ 10`), so `preprocess` does not
return a filtered sequence. -/
theorem preprocess_len10_raises :
    preprocess concreteOps 5000 (List.replicate 10 1) Sensor.mic =
      Except.error "The length of the input vector x must be greater than padlen" := by
  norm_num [preprocess, butter, filtfilt, concreteOps]

/-- C4 as amended: for every signal strictly longer than the bandpass
pad length 27 (i.e. of length ≥ 28), `preprocess` returns without error
a filtered sequence of the same length as the input, for any sampling
frequency above 1200 Hz and either sensor kind. -/
theorem preprocess_length_eq (ops : NumOps)
    (hb : ∀ N wn, ((ops.butterBA N wn).1.length = 2 * N + 1
      ∧ (ops.butterBA N wn).2.length = 2 * N + 1))
    (hn : ∀ w q fs, ((ops.iirnotch w q fs).1.length = 3
      ∧ (ops.iirnotch w q fs).2.length = 3))
    (fs : ℚ) (hfs : 1200 < fs) (data : List ℚ) (sensor : Sensor)
    (hlen : 28 ≤ data.length) :
    exceptLen (preprocess ops fs data sensor) = some data.length := by
  have hhalf : (0 : ℚ) < fs / 2 := by linarith
  have h1 : ¬(50 / (fs / 2) ≤ 0) := by
    have := div_pos (by norm_num : (0 : ℚ) < 50) hhalf
    linarith
  have h2 : ¬((1 : ℚ) ≤ 50 / (fs / 2)) := by
    rw [not_le, div_lt_one hhalf]
    linarith
  have h3 : ¬(600 / (fs / 2) ≤ 0) := by
    have := div_pos (by norm_num : (0 : ℚ) < 600) hhalf
    linarith
  have h4 : ¬((1 : ℚ) ≤ 600 / (fs / 2)) := by
    rw [not_le, div_lt_one hhalf]
    linarith
  have hbutter : butter ops 4 [50 / (fs / 2), 600 / (fs / 2)] =
      Except.ok (ops.butterBA 4 [50 / (fs / 2), 600 / (fs / 2)]) := by
    simp [butter, h1, h2, h3, h4]
  obtain ⟨hb1, hb2⟩ := hb 4 [50 / (fs / 2), 600 / (fs / 2)]
  obtain ⟨y1, hy1, hy1l⟩ := filtfilt_ok ops (ops.butterBA 4 [50 / (fs / 2), 600 / (fs / 2)]).1
    (ops.butterBA 4 [50 / (fs / 2), 600 / (fs / 2)]).2 data (by rw [hb1, hb2]; omega)
  obtain ⟨hn1, hn2⟩ := hn 50 30 fs
  obtain ⟨y2, hy2, hy2l⟩ := filtfilt_ok ops (ops.iirnotch 50 30 fs).1
    (ops.iirnotch 50 30 fs).2 y1 (by rw [hn1, hn2, hy1l]; omega)
  obtain ⟨hh1, hh2⟩ := hn 100 30 fs
  obtain ⟨y3, hy3, hy3l⟩ := filtfilt_ok ops (ops.iirnotch 100 30 fs).1
    (ops.iirnotch 100 30 fs).2 y2 (by rw [hh1, hh2, hy2l, hy1l]; omega)
  cases sensor with
  | mic =>
    simp only [preprocess]
    rw [if_neg (by omega), hbutter]
    simp only [hy1, hy2]
    simp [exceptLen, hy2l, hy1l]
  | piezo =>
    simp only [preprocess]
    rw [if_neg (by omega), hbutter]
    simp only [hy1, hy2, hy3]
    simp [exceptLen, hy3l, hy2l, hy1l]

/-- Witness for the amended C4 on a 28-sample signal. -/
theorem preprocess_length_eq_witness :
    exceptLen (preprocess concreteOps 5000 (List.replicate 28 1) Sensor.mic) = some 28 := by
  have h := preprocess_length_eq concreteOps
    (fun N wn => by constructor <;> simp [concreteOps])
    (fun w q fs => by constructor <;> simp [concreteOps])
    5000 (by norm_num) (List.replicate 28 1) Sensor.mic (by simp)
  simpa using h

/-- C8: for any sampling frequency not exceeding 1200 Hz (including all
non-positive ones) the 600 Hz upper cutoff normalizes to at least the
Nyquist frequency (or to a non-positive value), and building the
bandpass filter reports scipy's critical-frequency error immediately —
`preprocess` never proceeds to filtering.  (In Python, `fs = 0` raises
`ZeroDivisionError` at `50 / (fs / 2)` instead, still an immediate
error; the rational model's `x / 0 = 0` routes it through the same
validation.) -/
theorem preprocess_invalid_fs (ops : NumOps) (fs : ℚ) (data : List ℚ) (sensor : Sensor)
    (hfs : fs ≤ 1200) (hlen : 10 ≤ data.length) :
    preprocess ops fs data sensor =
      Except.error "Digital filter critical frequencies must be 0 < Wn < 1" := by
  have hbad : (600 / (fs / 2) ≤ 0) ∨ ((1 : ℚ) ≤ 600 / (fs / 2)) := by
    rcases le_or_lt fs 0 with h0 | h0
    · left
      rcases eq_or_lt_of_le h0 with he | hl
      · subst he
        norm_num
      · have hneg : fs / 2 < 0 := by linarith
        exact le_of_lt (div_neg_of_pos_of_neg (by norm_num) hneg)
    · right
      rw [le_div_iff₀ (by linarith : (0 : ℚ) < fs / 2)]
      linarith
  have hbutter : butter ops 4 [50 / (fs / 2), 600 / (fs / 2)] =
      Except.error "Digital filter critical frequencies must be 0 < Wn < 1" := by
    simp only [butter, List.any_cons, List.any_nil]
    rw [if_pos]
    simp only [Bool.or_eq_true, decide_eq_true_eq]
    tauto
  simp only [preprocess]
  rw [if_neg (by omega), hbutter]

/-- Witness for C8 at `fs = 1000`. -/
theorem preprocess_invalid_fs_witness :
    preprocess concreteOps 1000 (List.replicate 12 0) Sensor.piezo =
      Except.error "Digital filter critical frequencies must be 0 < Wn < 1" :=
  preprocess_invalid_fs concreteOps 1000 (List.replicate 12 0) Sensor.piezo
    (by norm_num) (by simp)

/-- Elementwise product of the all-zero signal with any window is
all-zero. -/
theorem zipWith_mul_replicate_zero : ∀ (n : ℕ) (w : List ℚ),
    List.zipWith (fun x y => x * y) (List.replicate n 0) w =
      List.replicate (min n w.length) 0 := by
  intro n
  induction n with
  | zero => intro w; simp
  | succ k ih =>
    intro w
    cases w with
    | nil => simp
    | cons a t => simp [List.replicate_succ, ih, Nat.succ_min_succ]

/-- Folding `max` from 0 over zeros stays 0. -/
theorem npMax_foldl_zero : ∀ m : ℕ, List.foldl max (0 : ℚ) (List.replicate m 0) = 0 := by
  intro m
  induction m with
  | zero => rfl
  | succ k ih => simpa [List.replicate_succ] using ih

/-- The maximum of an all-zero spectrum is 0. -/
theorem npMax_replicate_zero : ∀ m : ℕ, npMax (List.replicate m (0 : ℚ)) = 0 := by
  intro m
  cases m with
  | zero => rfl
  | succ k => simp [List.replicate_succ, npMax, npMax_foldl_zero]

/-- The accumulator never exceeds a `max` fold. -/
theorem le_foldl_max (xs : List ℚ) : ∀ acc : ℚ, acc ≤ xs.foldl max acc := by
  induction xs with
  | nil => intro acc; exact le_refl acc
  | cons y ys ih => intro acc; exact le_trans (le_max_left acc y) (ih (max acc y))

/-- The maximum of a list of nonnegative magnitudes is nonnegative. -/
theorem npMax_nonneg (l : List ℚ) (h : ∀ v ∈ l, 0 ≤ v) : 0 ≤ npMax l := by
  cases l with
  | nil => exact le_refl 0
  | cons x xs => exact le_trans (h x (List.mem_cons_self x xs)) (le_foldl_max xs x)

/-- A NaN-free sum is the plain rational sum. -/
theorem optSum_map_some : ∀ l : List ℚ, optSum (l.map some) = some l.sum := by
  intro l
  induction l with
  | nil => rfl
  | cons x xs ih => simp [optSum, ih]

/-- Band-summing a NaN-free spectrum yields the finite band sum. -/
theorem optSum_maskSelect_some (freqs vals : List ℚ) (lo hi : ℚ) :
    optSum (maskSelect freqs (vals.map some) lo hi) = some (bandSum freqs vals lo hi) := by
  rw [maskSelect, bandSum, List.zip_map_right, List.filter_map]
  have hcomp : ((fun p : ℚ × Option ℚ => decide (lo ≤ p.1) && decide (p.1 < hi)) ∘
      Prod.map id some) = fun p : ℚ × ℚ => decide (lo ≤ p.1) && decide (p.1 < hi) := by
    funext p
    cases p
    rfl
  rw [hcomp, List.map_map]
  have hsnd : (Prod.snd ∘ Prod.map id some) = some ∘ (Prod.snd : ℚ × ℚ → ℚ) := by
    funext p
    cases p
    rfl
  rw [hsnd, ← List.map_map]
  exact optSum_map_some _

/-- C5 counterexample: a 10-sample signal (length ≥ 10 as the claim
requires) reaches `np.argmax(fft_vals[10:])` with an empty slice
(`n // 2 = 5 ≤ 10` bins) and raises, returning no dominant frequency.
The error is forced by the length alone, so it is independent of the
kernel values in `concreteOps`. -/
theorem analyze_signal_len10_raises :
    analyze_signal concreteOps 5000 (List.replicate 10 1) =
      Except.error "attempt to get argmax of an empty sequence" := rfl

/-- C5 as amended: for every signal of length at least 22 (so that the
one-sided spectrum has more than 10 bins), `analyze_signal` returns
without raising, and the dominant frequency is the frequency-axis value
at the index of maximum normalized magnitude over the one-sided spectrum
with the first 10 bins excluded (`np.argmax` semantics: first maximum,
or first NaN when the spectrum is degenerate). -/
theorem analyze_signal_dominant (ops : NumOps) (fs : ℚ) (data : List ℚ)
    (h22 : 22 ≤ data.length) :
    domFreqView (analyze_signal ops fs data) =
      some ((freqAxis fs data.length).getD (argmaxF ((normOf ops data).drop 10) + 10) 0) := by
  simp only [analyze_signal]
  rw [if_neg (by omega), if_neg (by omega)]
  rfl

/-- Witness for the amended C5 on a 32-sample signal. -/
theorem analyze_signal_dominant_witness :
    (domFreqView (analyze_signal concreteOps 5000 (List.replicate 32 1))).isSome = true := by
  rw [analyze_signal_dominant concreteOps 5000 (List.replicate 32 1) (by norm_num)]
  rfl

/-- C6: on an all-zero signal (length ≥ 22 so the slice is nonempty)
the magnitude spectrum is all-zero, `np.max` is 0, and the unguarded
division `fft_vals / np.max(fft_vals)` produces an all-NaN normalized
spectrum (`0/0` in every bin) without raising — contradicting the
spec's requirement of a guarded, all-zero normalized spectrum.  Proven
for every kernel whose magnitude of the zero signal is zero, as the
real FFT's is. -/
theorem analyze_zero_signal_nan (ops : NumOps)
    (hhan : ∀ n, (ops.hanning n).length = n)
    (hfz : ∀ n, ops.fftAbs (List.replicate n 0) = List.replicate n 0)
    (fs : ℚ) (n : ℕ) (h22 : 22 ≤ n) :
    fftValsView (analyze_signal ops fs (List.replicate n 0)) =
      some (List.replicate (n / 2) none) := by
  have hfv : fftValsOf ops (List.replicate n 0) = List.replicate (n / 2) 0 := by
    simp only [fftValsOf, List.length_replicate]
    rw [zipWith_mul_replicate_zero, hhan n, min_self, hfz, List.take_replicate]
    congr 1
    omega
  have hnorm : normOf ops (List.replicate n 0) = List.replicate (n / 2) none := by
    simp [normOf, hfv, npMax_replicate_zero]
  simp only [analyze_signal, List.length_replicate]
  rw [if_neg (by omega), if_neg (by omega)]
  simp [fftValsView, hnorm]

/-- Witness for C6 on the all-zero 32-sample signal: all 16 spectrum
bins come back NaN. -/
theorem analyze_zero_signal_nan_witness :
    fftValsView (analyze_signal concreteOps 5000 (List.replicate 32 0)) =
      some (List.replicate 16 none) := by
  have h := analyze_zero_signal_nan concreteOps
    (fun n => by simp [concreteOps])
    (fun n => by simp [concreteOps])
    5000 32 (by norm_num)
  simpa using h

/-- C7 counterexample: the all-zero 32-sample signal has length ≥ 10,
yet the energy ratio the code returns is NaN (the band sums are taken
over the all-NaN normalized spectrum), so the ratio is neither the
claimed finite quotient nor nonnegative.  Only `|fft(0)| = 0` is used
of the concrete kernels, which holds for the real FFT. -/
theorem energy_ratio_nan_at_zero_signal :
    ratioView (analyze_signal concreteOps 5000 (List.replicate 32 0)) = some none := by
  norm_num [ratioView, analyze_signal, normOf, fftValsOf, concreteOps, freqAxis, npMax,
    maskSelect, optSum, optDiv, List.zip, List.zipWith, List.filter, List.range_succ,
    argmaxF, List.findIdx?]

/-- C7 as amended: for every signal of length at least 22 whose
magnitude spectrum has a nonzero maximum, the energy ratio returned by
`analyze_signal` equals the sum of normalized magnitudes over bins in
[300, 600) Hz divided by (the sum over bins in [50, 150) Hz plus 1e-9),
and this ratio is nonnegative and finite. -/
theorem energy_ratio_formula (ops : NumOps)
    (hnn : ∀ x, ∀ v ∈ ops.fftAbs x, 0 ≤ v)
    (fs : ℚ) (data : List ℚ) (h22 : 22 ≤ data.length)
    (hm : npMax (fftValsOf ops data) ≠ 0) :
    ratioView (analyze_signal ops fs data) =
      some (some (bandSum (freqAxis fs data.length) (normVals ops data) 300 600 /
        (bandSum (freqAxis fs data.length) (normVals ops data) 50 150 + 1 / 1000000000)))
    ∧ 0 ≤ bandSum (freqAxis fs data.length) (normVals ops data) 300 600 /
        (bandSum (freqAxis fs data.length) (normVals ops data) 50 150 + 1 / 1000000000) := by
  have hfnn : ∀ v ∈ fftValsOf ops data, 0 ≤ v := fun v hv =>
    hnn _ v (List.take_subset _ _ hv)
  have hm0 : 0 ≤ npMax (fftValsOf ops data) := npMax_nonneg _ hfnn
  have hmpos : 0 < npMax (fftValsOf ops data) := lt_of_le_of_ne hm0 (Ne.symm hm)
  have hvnn : ∀ v ∈ normVals ops data, 0 ≤ v := by
    intro v hv
    obtain ⟨u, hu, rfl⟩ := List.mem_map.mp hv
    exact div_nonneg (hfnn u hu) (le_of_lt hmpos)
  have hbs : ∀ lo hi : ℚ, 0 ≤ bandSum (freqAxis fs data.length) (normVals ops data) lo hi := by
    intro lo hi
    apply List.sum_nonneg
    intro x hx
    obtain ⟨p, hp, rfl⟩ := List.mem_map.mp hx
    exact hvnn _ (List.of_mem_zip (List.mem_of_mem_filter hp)).2
  have hden : 0 < bandSum (freqAxis fs data.length) (normVals ops data) 50 150
      + 1 / 1000000000 := by
    have := hbs 50 150
    linarith
  have hnorm : normOf ops data = (normVals ops data).map some := by
    simp only [normOf, normVals]
    rw [if_neg hm, List.map_map]
    rfl
  constructor
  · simp only [analyze_signal]
    rw [if_neg (by omega), if_neg (by omega)]
    simp only [ratioView]
    rw [hnorm, optSum_maskSelect_some, optSum_maskSelect_some]
    have hden2 : bandSum (freqAxis fs data.length) (normVals ops data) 50 150
        + (1000000000 : ℚ)⁻¹ ≠ 0 := by
      rw [← one_div]
      exact ne_of_gt hden
    simp [optDiv, hden2]
  · exact div_nonneg (hbs 300 600) (le_of_lt hden)

/-- Witness for the amended C7 on a constant 32-sample signal. -/
theorem energy_ratio_formula_witness :
    ratioView (analyze_signal concreteOps 5000 (List.replicate 32 1)) =
      some (some (bandSum (freqAxis 5000 32) (normVals concreteOps (List.replicate 32 1)) 300 600 /
        (bandSum (freqAxis 5000 32) (normVals concreteOps (List.replicate 32 1)) 50 150
          + 1 / 1000000000)))
    ∧ 0 ≤ bandSum (freqAxis 5000 32) (normVals concreteOps (List.replicate 32 1)) 300 600 /
        (bandSum (freqAxis 5000 32) (normVals concreteOps (List.replicate 32 1)) 50 150
          + 1 / 1000000000) := by
  have h := energy_ratio_formula concreteOps
    (by
      intro x v hv
      simp only [concreteOps] at hv
      obtain ⟨a, ha, rfl⟩ := List.mem_map.mp hv
      exact abs_nonneg a)
    5000 (List.replicate 32 1) (by norm_num)
    (by norm_num [fftValsOf, concreteOps, npMax, List.zip, List.zipWith, List.filter])
  simpa using h

end VAG
